import Mathlib

/-!
Verification of the client-side data-freshness subsystem of a market dashboard:
the TTL cache and cache-key construction of the SDK service layer, the shared
board-data store, the generic polling hook, and the three-stage screening
pipeline.  Each definition is a shallow embedding of the corresponding
TypeScript function; stateful code is embedded as an explicit step function
over an event trace, with every timestamp passed explicitly.
-/

namespace StockDashboard

/-! ## TTL cache (services layer: getCacheKey / getFromCache / setCache) -/

/-- CacheItem, the entry type of the in-memory cache: payload, the epoch
millisecond at which it was stored, and its time-to-live in milliseconds. -/
structure CacheItem (α : Type) where
  data : α
  timestamp : Nat
  ttl : Nat
deriving DecidableEq

/-- The in-memory cache, a string-keyed map embedded as an association list. -/
abbrev Cache (α : Type) := List (String × CacheItem α)

/-- Lookup of a key in the cache map. -/
def cacheFind (c : Cache α) (key : String) : Option (CacheItem α) :=
  match c with
  | [] => none
  | (k, it) :: rest => if k = key then some it else cacheFind rest key

/-- Deletion of a key from the cache map. -/
def cacheDelete (c : Cache α) (key : String) : Cache α :=
  match c with
  | [] => []
  | (k, it) :: rest =>
    if k = key then cacheDelete rest key else (k, it) :: cacheDelete rest key

/-- Map insertion; overwrites any existing entry under the same key. -/
def cacheInsert (c : Cache α) (key : String) (it : CacheItem α) : Cache α :=
  (key, it) :: cacheDelete c key

/-- getFromCache: returns the stored data while the entry's age is at most its
ttl; when now - timestamp > ttl the entry is deleted and absence is reported.
The current time is an explicit argument; the pair returned is the read result
together with the possibly evicted cache. -/
def getFromCache (c : Cache α) (key : String) (now : Nat) :
    Option α × Cache α :=
  match cacheFind c key with
  | none => (none, c)
  | some item =>
    if item.ttl < now - item.timestamp then (none, cacheDelete c key)
    else (some item.data, c)

/-- setCache: unconditionally stores the data under the key, stamping the
current time as the entry's timestamp. -/
def setCache (c : Cache α) (key : String) (data : α) (ttl : Nat) (now : Nat) :
    Cache α :=
  cacheInsert c key { data := data, timestamp := now, ttl := ttl }

/-! ## Cache keys (getCacheKey and JSON.stringify over argument lists) -/

/-- JSON-like values passed as arguments to the SDK wrapper functions. -/
inductive JVal : Type where
  | jnum : Int → JVal
  | jstr : String → JVal
  | jbool : Bool → JVal
  | jarr : List JVal → JVal
  | jobj : List (String × JVal) → JVal

mutual

/-- Structural Boolean equality of JSON values. -/
def jbeq : JVal → JVal → Bool
  | .jnum a, .jnum b => a == b
  | .jstr a, .jstr b => a == b
  | .jbool a, .jbool b => a == b
  | .jarr a, .jarr b => jbeqList a b
  | .jobj a, .jobj b => jbeqFields a b
  | _, _ => false

/-- Structural Boolean equality of lists of JSON values. -/
def jbeqList : List JVal → List JVal → Bool
  | [], [] => true
  | a :: arest, b :: brest => jbeq a b && jbeqList arest brest
  | _, _ => false

/-- Structural Boolean equality of object property lists. -/
def jbeqFields : List (String × JVal) → List (String × JVal) → Bool
  | [], [] => true
  | (k1, v1) :: arest, (k2, v2) :: brest =>
    k1 == k2 && jbeq v1 v2 && jbeqFields arest brest
  | _, _ => false

end

mutual

/-- JSON.stringify on a single value: object properties are serialized in
insertion order, exactly as the host serializer does. -/
def stringify : JVal → String
  | .jnum n => toString n
  | .jstr s => "\"" ++ s ++ "\""
  | .jbool b => if b then "true" else "false"
  | .jarr l => "[" ++ stringifyList l ++ "]"
  | .jobj fs => "\x7b" ++ stringifyFields fs ++ "\x7d"

/-- Comma-separated serialization of array elements. -/
def stringifyList : List JVal → String
  | [] => ""
  | [v] => stringify v
  | v :: rest => stringify v ++ "," ++ stringifyList rest

/-- Comma-separated serialization of object properties, in insertion order. -/
def stringifyFields : List (String × JVal) → String
  | [] => ""
  | [(k, v)] => "\"" ++ k ++ "\":" ++ stringify v
  | (k, v) :: rest =>
    "\"" ++ k ++ "\":" ++ stringify v ++ "," ++ stringifyFields rest

end

/-- getCacheKey: the cache key is the method name, a colon, and the
JSON-serialized argument list. -/
def getCacheKey (method : String) (args : List JVal) : String :=
  method ++ ":" ++ stringify (.jarr args)

/-- Ordered insertion of an object property by key, used to canonicalize
property order when defining value-equality of JSON arguments. -/
def insertField (p : String × JVal) :
    List (String × JVal) → List (String × JVal)
  | [] => [p]
  | q :: rest => if p.1 < q.1 then p :: q :: rest else q :: insertField p rest

/-- Sorting of object properties by key. -/
def sortFields : List (String × JVal) → List (String × JVal)
  | [] => []
  | p :: rest => insertField p (sortFields rest)

mutual

/-- Canonical form of a JSON value: object properties recursively sorted by
key, so two values are value-equal exactly when their canonical forms agree. -/
def canon : JVal → JVal
  | .jnum n => .jnum n
  | .jstr s => .jstr s
  | .jbool b => .jbool b
  | .jarr l => .jarr (canonList l)
  | .jobj fs => .jobj (sortFields (canonFields fs))

/-- Canonical forms of a list of values. -/
def canonList : List JVal → List JVal
  | [] => []
  | v :: rest => canon v :: canonList rest

/-- Canonical forms of the values of an object's properties. -/
def canonFields : List (String × JVal) → List (String × JVal)
  | [] => []
  | (k, v) :: rest => (k, canon v) :: canonFields rest

end

/-- Value-equality of JSON values: equality of the underlying data regardless
of object identity and of property insertion order. -/
def jsonValueEq (a b : JVal) : Bool := jbeq (canon a) (canon b)

/-! ## Shared board-data store (BoardDataContext.fetchData) -/

/-- Minimum interval in milliseconds between two non-forced board refreshes. -/
def MIN_REFRESH_INTERVAL : Nat := 10000

/-- State of the board-data store.  inflight counts fetchData bodies that have
passed the guards and not yet settled; pairCalls counts the issued pairs of
remote calls (one getIndustryList plus one getConceptList per fetch). -/
structure BoardState where
  isFetching : Bool
  lastUpdated : Option Nat
  loading : Bool
  isInitialLoad : Bool
  inflight : Nat
  pairCalls : Nat
deriving DecidableEq

/-- Initial state of the provider: loading, never updated, nothing running. -/
def initBoardState : BoardState :=
  { isFetching := false, lastUpdated := none, loading := true,
    isInitialLoad := true, inflight := 0, pairCalls := 0 }

/-- Truthiness of the nullable lastUpdated timestamp, as tested by the guard
lastUpdated && Date.now() - lastUpdated < MIN_REFRESH_INTERVAL. -/
def truthy : Option Nat → Bool
  | none => false
  | some t => t != 0

/-- The throttle guard of fetchData for a non-forced call. -/
def throttled (lastUpdated : Option Nat) (now : Nat) : Bool :=
  truthy lastUpdated && decide (now - lastUpdated.getD 0 < MIN_REFRESH_INTERVAL)

/-- Events of the board-data store: a fetchData invocation running up to its
first suspension point, and the settlement (success or failure) of the running
fetch pair. -/
inductive BoardEvent where
  | call (force : Bool) (now : Nat)
  | settleOk (now : Nat)
  | settleErr
deriving DecidableEq

/-- One step of the board-data store.  A call returns at once when a fetch is
already in flight, or when not forced and within the minimum refresh interval
of the last successful update; otherwise it raises the in-flight flag and
issues one pair of remote calls.  Settlement clears the flag, records the
update time on success, and lowers the initial-loading flag exactly once. -/
def boardStep (s : BoardState) : BoardEvent → BoardState
  | .call force now =>
    if s.isFetching then s
    else if !force && throttled s.lastUpdated now then s
    else { s with isFetching := true, inflight := s.inflight + 1,
                  pairCalls := s.pairCalls + 1 }
  | .settleOk now =>
    match s.inflight with
    | 0 => s
    | n + 1 =>
      { s with inflight := n, isFetching := false, lastUpdated := some now,
               loading := if s.isInitialLoad then false else s.loading,
               isInitialLoad := false }
  | .settleErr =>
    match s.inflight with
    | 0 => s
    | n + 1 =>
      { s with inflight := n, isFetching := false,
               loading := if s.isInitialLoad then false else s.loading,
               isInitialLoad := false }

/-- Execution of a trace of board-store events from the initial state. -/
def boardRun (events : List BoardEvent) : BoardState :=
  events.foldl boardStep initBoardState

/-- Invariant of the board-data store: the in-flight flag mirrors the number
of running fetch bodies, which never exceeds one. -/
def BoardInv (s : BoardState) : Prop :=
  s.inflight ≤ 1 ∧ (s.isFetching = true ↔ s.inflight = 1)

/-! ## Polling engine (usePolling: refresh / scheduleNext / visibility) -/

/-- State of a polling subscription.  running counts producer invocations
started and not yet settled; timerSet records whether a timeout is pending. -/
structure PollState where
  running : Nat
  timerSet : Bool
  hidden : Bool
  isPaused : Bool
  enabled : Bool
  isLoading : Bool
  lastRefresh : Option Nat
  invocations : Nat
deriving DecidableEq

/-- State right after mounting the hook with immediate invocation enabled and
the subscription neither paused nor disabled: refresh() has been started once
and scheduleNext will run when it settles. -/
def pollInit : PollState :=
  { running := 1, timerSet := false, hidden := false, isPaused := false,
    enabled := true, isLoading := true, lastRefresh := none, invocations := 1 }

/-- Events of the polling engine: the pending timeout firing, a producer
invocation settling (with success flag and settlement time), and the page
being hidden or shown again. -/
inductive PollEvent where
  | fire
  | settle (ok : Bool) (now : Nat)
  | pageHide
  | pageShow
deriving DecidableEq

/-- scheduleNext: clears any pending timer, then arms a new one unless the
subscription is paused or disabled.  Page visibility is not consulted. -/
def scheduleNext (s : PollState) : PollState :=
  let s1 := { s with timerSet := false }
  if s.isPaused || !s.enabled then s1
  else { s1 with timerSet := true }

/-- One step of the polling engine.  A firing timer starts a producer
invocation; a settlement records the refresh time on success and then runs
scheduleNext; hiding the page clears the timer; showing the page immediately
starts an invocation when neither paused nor disabled, without checking
whether one is already in flight. -/
def pollStep (s : PollState) : PollEvent → PollState
  | .fire =>
    if s.timerSet then
      { s with timerSet := false, running := s.running + 1,
               invocations := s.invocations + 1, isLoading := true }
    else s
  | .settle ok now =>
    match s.running with
    | 0 => s
    | n + 1 =>
      scheduleNext
        { s with running := n, isLoading := false,
                 lastRefresh := if ok then some now else s.lastRefresh }
  | .pageHide => { s with hidden := true, timerSet := false }
  | .pageShow =>
    let s1 := { s with hidden := false }
    if !s1.isPaused && s1.enabled then
      { s1 with running := s1.running + 1, invocations := s1.invocations + 1,
                isLoading := true }
    else s1

/-- Execution of a trace of polling events from the freshly mounted state. -/
def pollRun (events : List PollEvent) : PollState :=
  events.foldl pollStep pollInit

/-- Invariant of the timer-driven polling loop (no visibility-regain events):
at most one of a running invocation and a pending timer exists. -/
def PollInv (s : PollState) : Prop :=
  s.running + (if s.timerSet then 1 else 0) ≤ 1

/-! ## Screening pipeline (end-of-day picker) -/

/-- FilterConditions of the screening pipeline; numbers are embedded as
rationals (market caps in units of one hundred million). -/
structure FilterConditions where
  marketCapMin : Rat
  marketCapMax : Rat
  volumeRatioMin : Rat
  changePercentMin : Rat
  changePercentMax : Rat
  turnoverRateMin : Rat
  turnoverRateMax : Rat
  excludeST : Bool
  timelineAboveAvgRatio : Rat
deriving DecidableEq

/-- DEFAULT_FILTERS: market cap 50 to 200, volume ratio at least 1.2, change
percent 3 to 5, turnover rate 5 to 10, ST names excluded, intraday
above-average-ratio floor 80. -/
def DEFAULT_FILTERS : FilterConditions :=
  { marketCapMin := 50, marketCapMax := 200, volumeRatioMin := 1.2,
    changePercentMin := 3, changePercentMax := 5,
    turnoverRateMin := 5, turnoverRateMax := 10,
    excludeST := true, timelineAboveAvgRatio := 80 }

/-- One point of an intraday timeline: time label, traded price, and the
running average price at that time. -/
structure TimelinePoint where
  time : String
  price : Rat
  avgPrice : Rat
deriving DecidableEq

/-- Response of the intraday-timeline endpoint: a nullable list of points. -/
structure TodayTimelineResponse where
  data : Option (List TimelinePoint)
deriving DecidableEq

/-- A full quote as consumed by the basic filter; nullable numeric fields are
embedded as options.  The open field is renamed openPrice, open being a
reserved word. -/
structure FullQuote where
  code : String
  name : String
  price : Rat
  changePercent : Rat
  change : Rat
  volume : Rat
  amount : Rat
  turnoverRate : Option Rat
  volumeRatio : Option Rat
  circulatingMarketCap : Option Rat
  totalMarketCap : Option Rat
  pe : Option Rat
  pb : Option Rat
  high : Rat
  low : Rat
  openPrice : Rat
  prevClose : Rat
deriving DecidableEq

/-- StockData: the quote projection carried through the pipeline, optionally
enriched with the intraday timeline and above-average ratio in Stage 3. -/
structure StockData where
  code : String
  name : String
  price : Rat
  changePercent : Rat
  change : Rat
  volume : Rat
  amount : Rat
  turnoverRate : Option Rat
  volumeRatio : Option Rat
  circulatingMarketCap : Option Rat
  totalMarketCap : Option Rat
  pe : Option Rat
  pb : Option Rat
  high : Rat
  low : Rat
  openPrice : Rat
  prevClose : Rat
  timeline : Option (List TimelinePoint) := none
  timelineAboveAvgRatio : Option Rat := none
deriving DecidableEq

/-- Whether the character list sub occurs as a contiguous run at the front. -/
def charsHaveStart : List Char → List Char → Bool
  | [], _ => true
  | _ :: _, [] => false
  | a :: arest, b :: brest => a == b && charsHaveStart arest brest

/-- Whether the character list sub occurs contiguously anywhere in s. -/
def charsInclude (s sub : List Char) : Bool :=
  match s with
  | [] => charsHaveStart sub []
  | _ :: rest => charsHaveStart sub s || charsInclude rest sub

/-- The host language includes test on strings: substring containment. -/
def strIncludes (s sub : String) : Bool := charsInclude s.toList sub.toList

/-- The filter predicate of filterStocksBasic, branch for branch: the ST-name
exclusion, then the nullable circulating-market-cap range, the nullable
volume-ratio floor, the change-percent range, and the nullable turnover-rate
range. -/
def passesBasicFilter (filters : FilterConditions) (quote : FullQuote) :
    Bool :=
  if filters.excludeST &&
      (strIncludes quote.name ("ST") || strIncludes quote.name ("*ST")) then
    false
  else
    match quote.circulatingMarketCap with
    | none => false
    | some marketCap =>
      if marketCap < filters.marketCapMin ∨ marketCap > filters.marketCapMax
      then false
      else
        match quote.volumeRatio with
        | none => false
        | some volumeRatio =>
          if volumeRatio < filters.volumeRatioMin then false
          else if quote.changePercent < filters.changePercentMin ∨
              quote.changePercent > filters.changePercentMax then false
          else
            match quote.turnoverRate with
            | none => false
            | some turnoverRate =>
              if turnoverRate < filters.turnoverRateMin ∨
                  turnoverRate > filters.turnoverRateMax then false
              else true

/-- The field-for-field projection of a passing quote into StockData. -/
def toStockData (quote : FullQuote) : StockData :=
  { code := quote.code, name := quote.name, price := quote.price,
    changePercent := quote.changePercent, change := quote.change,
    volume := quote.volume, amount := quote.amount,
    turnoverRate := quote.turnoverRate, volumeRatio := quote.volumeRatio,
    circulatingMarketCap := quote.circulatingMarketCap,
    totalMarketCap := quote.totalMarketCap, pe := quote.pe, pb := quote.pb,
    high := quote.high, low := quote.low, openPrice := quote.openPrice,
    prevClose := quote.prevClose }

/-- Stable insertion of an element into a sorted list; le x y means x may stay
in front of y, matching the host's stable comparator sort. -/
def insertBy (le : α → α → Bool) (x : α) : List α → List α
  | [] => [x]
  | y :: ys => if le x y then x :: y :: ys else y :: insertBy le x ys

/-- Stable insertion sort by a Boolean comparator. -/
def sortBy (le : α → α → Bool) : List α → List α
  | [] => []
  | x :: xs => insertBy le x (sortBy le xs)

/-- filterStocksBasic: Stage 2 of the pipeline — filter, project, and sort by
descending change percent (comparator b.changePercent - a.changePercent). -/
def filterStocksBasic (filters : FilterConditions)
    (quotes : List FullQuote) : List StockData :=
  sortBy (fun a b => decide (b.changePercent ≤ a.changePercent))
    ((quotes.filter (passesBasicFilter filters)).map toStockData)

/-- calculateTimelineRatio: a missing or empty point list yields ratio 0 and
no points; otherwise the ratio is the percentage of points whose price is at
or above the running average price. -/
def calculateTimelineRatio (timeline : TodayTimelineResponse) :
    Rat × List TimelinePoint :=
  match timeline.data with
  | none => (0, [])
  | some rawPoints =>
    if rawPoints.isEmpty then (0, [])
    else
      let points := rawPoints.map fun item =>
        { time := item.time, price := item.price, avgPrice := item.avgPrice }
      let aboveAvgCount :=
        (points.filter fun p => p.avgPrice ≤ p.price).length
      (((aboveAvgCount : Rat) / (points.length : Rat)) * 100, points)

/-- The exchange-prefix inference used by the pipeline: leading digit 6 or 9
gives sh, 4 or 8 gives bj, anything else gives sz. -/
def marketOf (code : String) : String :=
  if code.startsWith ("6") || code.startsWith ("9") then "sh"
  else if code.startsWith ("4") || code.startsWith ("8") then "bj"
  else "sz"

/-- Per-symbol Stage-3 work: fetch the intraday timeline of the fully
qualified code; a failed fetch drops the symbol, a ratio below the floor
drops it, and otherwise the stock is kept enriched with points and ratio. -/
def processStock (fetchTimeline : String → Except Unit TodayTimelineResponse)
    (minRatio : Rat) (stock : StockData) : Option StockData :=
  match fetchTimeline (marketOf stock.code ++ stock.code) with
  | .error _ => none
  | .ok timeline =>
    let r := calculateTimelineRatio timeline
    if minRatio ≤ r.1 then
      some { stock with timeline := some r.2, timelineAboveAvgRatio := some r.1 }
    else none

/-- The Stage-3 batch loop with its fixed batch size of five: at the top of
each batch the cooperative abort flag (indexed by the loop counter) is
checked and, when set, the loop breaks; otherwise the batch of at most five
symbols is processed, its kept results are appended, and one progress value
min (i + 5) total is reported.  Returns the kept stocks and the list of
reported progress values. -/
def runBatches (fetchTimeline : String → Except Unit TodayTimelineResponse)
    (minRatio : Rat) (abort : Nat → Bool) (total : Nat) :
    List StockData → Nat → List StockData × List Nat
  | [], _ => ([], [])
  | a :: b :: c :: d :: e :: rest, i =>
    if abort i then ([], [])
    else
      let batchResults :=
        [a, b, c, d, e].filterMap (processStock fetchTimeline minRatio)
      let next := runBatches fetchTimeline minRatio abort total rest (i + 5)
      (batchResults ++ next.1, min (i + 5) total :: next.2)
  | rem, i =>
    if abort i then ([], [])
    else
      let batchResults := rem.filterMap (processStock fetchTimeline minRatio)
      (batchResults, [min (i + 5) total])

/-- filterWithTimeline: the Stage-3 driver — run the batch loop over the
Stage-2 candidates from index 0 and sort the kept stocks by descending
above-average ratio (missing ratios counting as 0). -/
def filterWithTimeline
    (fetchTimeline : String → Except Unit TodayTimelineResponse)
    (basicStocks : List StockData) (minRatio : Rat) (abort : Nat → Bool) :
    List StockData × List Nat :=
  let r := runBatches fetchTimeline minRatio abort basicStocks.length
    basicStocks 0
  (sortBy (fun a b =>
      decide ((b.timelineAboveAvgRatio.getD 0) ≤ (a.timelineAboveAvgRatio.getD 0)))
    r.1, r.2)

/-- The commit guard at the end of handleStartAnalysis: the displayed stock
list is replaced by the run's results only when the abort flag is unset. -/
def commitStage3 (abortFlag : Bool) (prevStocks newStocks : List StockData) :
    List StockData :=
  if abortFlag then prevStocks else newStocks

/-- A Stage-2 candidate record with the given code and neutral fields, used
to build concrete screening scenarios. -/
def mkCandidate (code : String) : StockData :=
  { code := code, name := "某科技", price := 10, changePercent := 4,
    change := 0, volume := 0, amount := 0, turnoverRate := some 7,
    volumeRatio := some 1.5, circulatingMarketCap := some 120,
    totalMarketCap := none, pe := none, pb := none, high := 0, low := 0,
    openPrice := 0, prevClose := 0 }

/-- The concrete quote of the basic-filter example: circulating market cap
120, volume ratio 1.5, change percent 4, turnover rate 7, name 某科技. -/
def exampleQuote : FullQuote :=
  { code := "600000", name := "某科技", price := 10, changePercent := 4,
    change := 0, volume := 0, amount := 0, turnoverRate := some 7,
    volumeRatio := some 1.5, circulatingMarketCap := some 120,
    totalMarketCap := none, pe := none, pb := none, high := 0, low := 0,
    openPrice := 0, prevClose := 0 }

/-- The four intraday points of the strength example: the price is at or
above the running average exactly at the first and third points. -/
def examplePoints : List TimelinePoint :=
  [ { time := "09:31", price := 11, avgPrice := 10 },
    { time := "09:32", price := 10, avgPrice := 11 },
    { time := "09:33", price := 12, avgPrice := 11 },
    { time := "09:34", price := 10, avgPrice := 12 } ]

/-- An intraday fetcher that answers every symbol with the example points. -/
def exampleFetch : String → Except Unit TodayTimelineResponse :=
  fun _ => .ok { data := some examplePoints }

/-- A history-kline argument list whose options object lists its properties
in one insertion order. -/
def argsOrderA : List JVal :=
  [.jstr ("sh600519"),
   .jobj [(("adjust"), .jstr ("qfq")), (("period"), .jstr ("daily"))]]

/-- The value-equal argument list with the options properties inserted in the
opposite order. -/
def argsOrderB : List JVal :=
  [.jstr ("sh600519"),
   .jobj [(("period"), .jstr ("daily")), (("adjust"), .jstr ("qfq"))]]

end StockDashboard

namespace StockDashboard

/-! ## Helper lemmas -/

/-- Lookup after insertion finds the freshly inserted entry. -/
theorem cacheFind_insert (c : Cache α) (key : String) (it : CacheItem α) :
    cacheFind (cacheInsert c key it) key = some it := by
  simp [cacheInsert, cacheFind]

/-- Lookup after deletion of the same key reports absence. -/
theorem cacheFind_delete_self (c : Cache α) (key : String) :
    cacheFind (cacheDelete c key) key = none := by
  induction c with
  | nil => simp [cacheDelete, cacheFind]
  | cons p rest ih =>
    by_cases h : p.1 = key
    · simp [cacheDelete, h, ih]
    · simp [cacheDelete, cacheFind, h, ih]

/-- The board-store invariant is preserved by every event. -/
theorem boardInv_step (s : BoardState) (e : BoardEvent) (hs : BoardInv s) :
    BoardInv (boardStep s e) := by
  obtain ⟨h1, h2⟩ := hs
  cases e with
  | call force now =>
    by_cases hf : s.isFetching
    · simpa [boardStep, hf] using ⟨h1, h2⟩
    · have h0 : s.inflight = 0 := by
        rcases Nat.lt_or_ge s.inflight 1 with h | h
        · omega
        · exact absurd (h2.mpr (by omega)) (by simpa using hf)
      by_cases ht : (!force && throttled s.lastUpdated now) = true
      · simpa [boardStep, hf, ht] using ⟨h1, h2⟩
      · simp [boardStep, hf, ht, BoardInv, h0]
  | settleOk now =>
    rcases hin : s.inflight with _ | n
    · simpa [boardStep, hin] using ⟨h1, h2⟩
    · have : n = 0 := by omega
      simp [boardStep, hin, BoardInv, this]
  | settleErr =>
    rcases hin : s.inflight with _ | n
    · simpa [boardStep, hin] using ⟨h1, h2⟩
    · have : n = 0 := by omega
      simp [boardStep, hin, BoardInv, this]

/-- The board-store invariant holds after any event trace from an invariant
state. -/
theorem boardInv_fold (evs : List BoardEvent) (s : BoardState)
    (hs : BoardInv s) : BoardInv (List.foldl boardStep s evs) := by
  induction evs generalizing s with
  | nil => simpa using hs
  | cons e rest ih => exact ih (boardStep s e) (boardInv_step s e hs)

/-- The polling invariant is preserved by every event other than a
visibility regain. -/
theorem pollInv_step (s : PollState) (e : PollEvent)
    (he : e ≠ PollEvent.pageShow) (hs : PollInv s) : PollInv (pollStep s e) := by
  cases e with
  | fire =>
    by_cases ht : s.timerSet
    · have h0 : s.running = 0 := by
        simp only [PollInv, ht, if_true] at hs; omega
      simp [pollStep, ht, PollInv, h0]
    · simpa [pollStep, ht] using hs
  | settle ok now =>
    rcases hr : s.running with _ | n
    · simpa [pollStep, hr] using hs
    · have hn : n = 0 := by
        simp only [PollInv, hr] at hs; omega
      by_cases hp : (s.isPaused || !s.enabled) = true
      · simp [pollStep, hr, scheduleNext, hp, PollInv, hn]
      · simp [pollStep, hr, scheduleNext, hp, PollInv, hn]
  | pageHide =>
    have hs' : s.running + (if s.timerSet then 1 else 0) ≤ 1 := hs
    have hr : s.running ≤ 1 := le_trans (Nat.le_add_right _ _) hs'
    simpa [PollInv, pollStep] using hr
  | pageShow => exact absurd rfl he

/-- The polling invariant holds after any trace free of visibility-regain
events, starting from an invariant state. -/
theorem pollInv_fold (evs : List PollEvent) :
    ∀ s : PollState, PollEvent.pageShow ∉ evs → PollInv s →
      PollInv (List.foldl pollStep s evs) := by
  induction evs with
  | nil => intro s _ hs; simpa using hs
  | cons e rest ih =>
    intro s h hs
    have he : e ≠ PollEvent.pageShow := fun hc => h (by simp [hc])
    have hrest : PollEvent.pageShow ∉ rest := fun hc => h (by simp [hc])
    exact ih (pollStep s e) hrest (pollInv_step s e he hs)

/-! ## Claim theorems -/

/-- C1, counterexample: an entry stored with ttl 100 and read at age exactly
100 is still returned by getFromCache, not reported absent as the claim's
boundary demands. -/
theorem ttl_boundary_counterexample :
    (getFromCache (setCache ([] : Cache Nat) ("k") 42 100 0) ("k") 100).1
        = some 42 ∧
    (getFromCache (setCache ([] : Cache Nat) ("k") 42 100 0) ("k") 100).1
        ≠ none := by
  constructor
  · decide
  · decide

/-- C1, amended: for every stored entry, getFromCache returns the value
whenever the entry's age is at most its ttl, and reports absence (evicting
the entry) whenever the age strictly exceeds the ttl; an entry whose age is
exactly ttl is treated as still fresh and is returned. -/
theorem ttl_cache_boundary_amended (c : Cache α) (key : String) (v : α)
    (ttl t now : Nat) :
    (now - t ≤ ttl →
      (getFromCache (setCache c key v ttl t) key now).1 = some v) ∧
    (ttl < now - t →
      (getFromCache (setCache c key v ttl t) key now).1 = none ∧
      cacheFind (getFromCache (setCache c key v ttl t) key now).2 key
        = none) := by
  constructor
  · intro h
    simp [getFromCache, setCache, cacheFind_insert, Nat.not_lt.mpr h]
  · intro h
    refine ⟨?_, ?_⟩
    · simp [getFromCache, setCache, cacheFind_insert, h]
    · simp [getFromCache, setCache, cacheFind_insert, h,
        cacheFind_delete_self]

/-- C1, witness for the amended theorem at a fresh and at an expired age. -/
theorem ttl_cache_boundary_amended_witness :
    (getFromCache (setCache ([] : Cache Nat) ("a") 7 100 0) ("a") 100).1
        = some 7 ∧
    (getFromCache (setCache ([] : Cache Nat) ("a") 7 100 0) ("a") 101).1
        = none :=
  ⟨(ttl_cache_boundary_amended ([] : Cache Nat) ("a") 7 100 0 100).1
      (by decide),
   ((ttl_cache_boundary_amended ([] : Cache Nat) ("a") 7 100 0 101).2
      (by decide)).1⟩

/-- C2, counterexample: the two history-kline argument lists are value-equal
(they differ only in the insertion order of the options object's properties)
yet getCacheKey produces different key strings for them. -/
theorem cache_key_property_order_counterexample :
    jsonValueEq (.jarr argsOrderA) (.jarr argsOrderB) = true ∧
    getCacheKey ("getHistoryKline") argsOrderA
      ≠ getCacheKey ("getHistoryKline") argsOrderB := by
  constructor
  · simp [jsonValueEq, jbeq, jbeqList, jbeqFields, canon, canonList,
      canonFields, sortFields, insertField, argsOrderA, argsOrderB]
  · simp [getCacheKey, stringify, stringifyList, stringifyFields,
      argsOrderA, argsOrderB]

/-- C2, amended: the cache key is a deterministic function of the endpoint
name and the argument list as serialized, so syntactically equal argument
lists (same values in the same property insertion order) always produce
identical keys; value-equal lists that differ in property insertion order may
produce different keys. -/
theorem cache_key_deterministic (method : String) (args1 args2 : List JVal)
    (h : args1 = args2) :
    getCacheKey method args1 = getCacheKey method args2 := by
  rw [h]

/-- C2, witness for the amended determinism theorem at a concrete call. -/
theorem cache_key_deterministic_witness :
    getCacheKey ("getIndustryList") [] = getCacheKey ("getIndustryList") [] :=
  cache_key_deterministic ("getIndustryList") [] [] rfl

/-- C3: at every reachable state of the board-data store at most one refresh
is in flight, and a trace of two forced refresh calls with no settlement in
between issues exactly one pair of board-list remote calls. -/
theorem board_store_single_flight :
    (∀ events : List BoardEvent, (boardRun events).inflight ≤ 1) ∧
    (∀ t0 t1 : Nat,
      (boardRun [.call true t0, .call true t1]).pairCalls = 1) := by
  constructor
  · intro events
    exact (boardInv_fold events initBoardState (by constructor <;> simp [initBoardState])).1
  · intro t0 t1
    rfl

/-- C5: if the producer rejects while an invocation is in flight, the engine
still arms the next timer, the following timer fire starts the next producer
invocation, and the rejected invocation leaves lastRefresh untouched. -/
theorem poller_error_resilience (s : PollState) (now : Nat)
    (hrun : 0 < s.running) (hp : s.isPaused = false) (he : s.enabled = true) :
    (pollStep s (.settle false now)).timerSet = true ∧
    (pollStep (pollStep s (.settle false now)) .fire).invocations
        = s.invocations + 1 ∧
    (pollStep s (.settle false now)).lastRefresh = s.lastRefresh := by
  rcases hr : s.running with _ | n
  · omega
  · refine ⟨?_, ?_, ?_⟩ <;> simp [pollStep, hr, scheduleNext, hp, he]

/-- C5, witness: a rejection right after mount reschedules and the next fire
performs the second invocation. -/
theorem poller_error_resilience_witness :
    (pollStep pollInit (.settle false 7)).timerSet = true ∧
    (pollStep (pollStep pollInit (.settle false 7)) .fire).invocations
        = pollInit.invocations + 1 ∧
    (pollStep pollInit (.settle false 7)).lastRefresh = pollInit.lastRefresh :=
  poller_error_resilience pollInit 7 (by decide) rfl rfl

/-- C4, counterexample: with the first producer invocation still in flight, a
page hide followed by a page show starts a second invocation, so two
invocations run concurrently — invocation N+1 has started before invocation N
settled. -/
theorem poller_overlap_counterexample :
    (pollRun [.pageHide, .pageShow]).running = 2 ∧
    1 < (pollRun [.pageHide, .pageShow]).running := by
  constructor
  · decide
  · decide

/-- C4, amended: in every run consisting of timer fires, settlements and page
hides (no visibility-regain event while the subscription runs), the engine
never has two producer invocations in flight: the next invocation is armed
only after the previous one settles.  A visibility regain during an in-flight
invocation can start an overlapping one. -/
theorem poller_no_overlap_amended (events : List PollEvent)
    (h : PollEvent.pageShow ∉ events) : (pollRun events).running ≤ 1 := by
  have hinv := pollInv_fold events pollInit h (by constructor)
  have h' : (pollRun events).running
      + (if (pollRun events).timerSet then 1 else 0) ≤ 1 := hinv
  omega

/-- C4, witness for the amended no-overlap theorem on a show-free trace. -/
theorem poller_no_overlap_amended_witness :
    (pollRun [.settle true 5, .fire, .settle false 9, .pageHide]).running
        ≤ 1 :=
  poller_no_overlap_amended [.settle true 5, .fire, .settle false 9, .pageHide]
    (by decide)

/-- C7: a non-forced fetch, a successful settlement, and a second non-forced
fetch issued within the minimum refresh interval of that settlement issue
exactly one pair of remote calls, while a forced call in any state with no
fetch in flight always issues one. -/
theorem board_store_throttle :
    (∀ t0 t1 t2 : Nat, t1 ≠ 0 → t2 - t1 < MIN_REFRESH_INTERVAL →
      (boardRun [.call false t0, .settleOk t1, .call false t2]).pairCalls
        = 1) ∧
    (∀ (s : BoardState) (now : Nat), s.isFetching = false →
      (boardStep s (.call true now)).pairCalls = s.pairCalls + 1) := by
  constructor
  · intro t0 t1 t2 h1 h2
    simp [boardRun, boardStep, initBoardState, throttled, truthy, h1, h2]
  · intro s now h
    simp [boardStep, h]

/-- C7, witness: the throttled trace at concrete times and a forced call from
the initial state. -/
theorem board_store_throttle_witness :
    (boardRun [.call false 0, .settleOk 5000, .call false 9000]).pairCalls
        = 1 ∧
    (boardStep initBoardState (.call true 0)).pairCalls
        = initBoardState.pairCalls + 1 :=
  ⟨board_store_throttle.1 0 5000 9000 (by decide) (by decide),
   board_store_throttle.2 initBoardState 0 rfl⟩

/-- C6: once the cooperative abort flag is observed set at a batch boundary,
the Stage-3 loop starts no further batches, produces no further results, and
reports no further progress values; and the commit guard with the flag set
leaves the displayed stock list unchanged, so no Stage-3 results from the
aborted run are committed. -/
theorem screening_abort_halts
    (fetch : String → Except Unit TodayTimelineResponse) (minRatio : Rat)
    (abort : Nat → Bool) (total : Nat) (rem : List StockData) (i : Nat)
    (h : abort i = true) (prevStocks results : List StockData) :
    runBatches fetch minRatio abort total rem i = ([], []) ∧
    commitStage3 true prevStocks results = prevStocks := by
  constructor
  · rcases rem with _ | ⟨a, _ | ⟨b, _ | ⟨c, _ | ⟨d, _ | ⟨e, rest⟩⟩⟩⟩⟩ <;>
      simp [runBatches, h]
  · simp [commitStage3]

/-- C6, witness: a run of six candidates whose abort flag is set from loop
index 5 on stops at the second batch boundary, and the commit guard keeps the
previous (empty) list. -/
theorem screening_abort_halts_witness :
    runBatches exampleFetch 0 (fun i => decide (5 ≤ i)) 6
        [mkCandidate ("600006")] 5 = ([], []) ∧
    commitStage3 true [] [mkCandidate ("600007")] = [] :=
  screening_abort_halts exampleFetch 0 (fun i => decide (5 ≤ i)) 6
    [mkCandidate ("600006")] 5 (by decide) [] [mkCandidate ("600007")]

/-- C8: under the default filters, the example quote (circulating market cap
120, volume ratio 1.5, change percent 4, turnover rate 7, name 某科技) passes
Stage 2, and the same quote with change percent 6 is excluded. -/
theorem screening_basic_filter_example :
    filterStocksBasic DEFAULT_FILTERS [exampleQuote]
        = [toStockData exampleQuote] ∧
    filterStocksBasic DEFAULT_FILTERS
        [{ exampleQuote with changePercent := 6 }] = [] := by
  have hST : strIncludes ("某科技") ("ST") = false := by decide
  have hSTx : strIncludes ("某科技") ("*ST") = false := by decide
  have hpass : passesBasicFilter DEFAULT_FILTERS exampleQuote = true := by
    norm_num [passesBasicFilter, DEFAULT_FILTERS, exampleQuote, hST, hSTx]
  have hfail : passesBasicFilter DEFAULT_FILTERS
      { exampleQuote with changePercent := 6 } = false := by
    norm_num [passesBasicFilter, DEFAULT_FILTERS, exampleQuote, hST, hSTx]
  constructor
  · simp [filterStocksBasic, hpass, sortBy, insertBy]
  · simp [filterStocksBasic, hfail, sortBy]

/-- C9: on the four example points, with the price at or above the running
average at exactly two of them, the above-average ratio is 50; a Stage-3 run
with floor 60 drops the candidate and one with floor 40 retains it, enriched
with the points and the ratio. -/
theorem screening_intraday_strength_example :
    (calculateTimelineRatio { data := some examplePoints }).1 = 50 ∧
    (filterWithTimeline exampleFetch [mkCandidate ("600001")] 60
        (fun _ => false)).1 = [] ∧
    (filterWithTimeline exampleFetch [mkCandidate ("600001")] 40
        (fun _ => false)).1
      = [{ mkCandidate ("600001") with
           timeline := some examplePoints,
           timelineAboveAvgRatio := some 50 }] := by
  have hratio : calculateTimelineRatio { data := some examplePoints }
      = (50, examplePoints) := by
    have h1 : calculateTimelineRatio { data := some examplePoints }
        = (((2 : Nat) : Rat) / ((4 : Nat) : Rat) * 100, examplePoints) := rfl
    rw [h1]
    norm_num
  refine ⟨by rw [hratio], ?_, ?_⟩
  · simp [filterWithTimeline, runBatches, processStock, exampleFetch, hratio,
      sortBy, (show ¬ ((60 : Rat) ≤ 50) by norm_num)]
  · simp [filterWithTimeline, runBatches, processStock, exampleFetch, hratio,
      sortBy, insertBy, (show (40 : Rat) ≤ 50 by norm_num)]

/-- C10: a Stage-2 candidate whose intraday fetch succeeds with an empty point
list gets ratio 0: it is dropped from the Stage-3 results for every positive
floor and retained with ratio 0 when the floor is 0. -/
theorem screening_empty_timeline
    (fetch : String → Except Unit TodayTimelineResponse) (stock : StockData)
    (minRatio : Rat)
    (hfetch : fetch (marketOf stock.code ++ stock.code)
        = .ok { data := some [] }) :
    (0 < minRatio →
      (filterWithTimeline fetch [stock] minRatio (fun _ => false)).1 = []) ∧
    (filterWithTimeline fetch [stock] 0 (fun _ => false)).1
      = [{ stock with
           timeline := some ([] : List TimelinePoint),
           timelineAboveAvgRatio := some (0 : Rat) }] := by
  constructor
  · intro h
    simp [filterWithTimeline, runBatches, processStock, hfetch,
      calculateTimelineRatio, sortBy, not_le.mpr h]
  · simp [filterWithTimeline, runBatches, processStock, hfetch,
      calculateTimelineRatio, sortBy, insertBy]

/-- C10, witness: a concrete candidate with an empty timeline is dropped at
the default floor 80 and retained with ratio 0 at floor 0. -/
theorem screening_empty_timeline_witness :
    (filterWithTimeline (fun _ => .ok { data := some [] })
        [mkCandidate ("600001")] 80 (fun _ => false)).1 = [] ∧
    (filterWithTimeline (fun _ => .ok { data := some [] })
        [mkCandidate ("600001")] 0 (fun _ => false)).1
      = [{ mkCandidate ("600001") with
           timeline := some ([] : List TimelinePoint),
           timelineAboveAvgRatio := some (0 : Rat) }] :=
  ⟨(screening_empty_timeline (fun _ => .ok { data := some [] })
      (mkCandidate ("600001")) 80 rfl).1 (by decide),
   (screening_empty_timeline (fun _ => .ok { data := some [] })
      (mkCandidate ("600001")) 0 rfl).2⟩

end StockDashboard
